import Mathlib

/-!
Shallow embedding of `src/bokeh/mpl.py`: the matplotlib→bokeh figure
converter (`axes2plot` and its `_make_*` / `*_props` helpers) and the
hand-drawn-line filter (`xkcd_line`).

Modelling conventions:
* Python numbers are exact rationals (`ℚ`); Python `int()` truncation
  toward zero is `pyInt`.
* Fallible dictionary lookups (`KeyError`) and list indexing
  (`IndexError`) are `Except String`.
* External numeric collaborators that the module merely calls — scipy's
  spline fit/evaluation (`splprep`/`splev`), numpy's unseeded Gaussian RNG,
  `signal.firwin`, elementwise `np.sqrt`, and matplotlib's `rgb2hex` —
  are oracle parameters (`SketchOracle`, `rgb2hex`); every theorem
  quantifies over them, so each actual execution is one instantiation.
* The target-library object model (`bokeh.objects`: `ColumnDataSource`,
  `DataRange1d`, `Plot`, …) is not part of this repository snapshot, so
  those pieces are modelled from the spec where indicated.
-/

/-- Python `int()` applied to an exact rational: truncation toward zero. -/
def pyInt (q : ℚ) : ℤ := if 0 ≤ q then q.floor else -((-q).floor)

/-- Embedding of `x.min()` of a nonempty numpy array (the converter never calls it on an
empty one). -/
def listMin (l : List ℚ) : ℚ := l.foldl min (l.headD 0)

/-- Embedding of `x.max()` of a nonempty numpy array. -/
def listMax (l : List ℚ) : ℚ := l.foldl max (l.headD 0)

/-- A matplotlib color specification as `_convert_color` receives it.
`num` covers every input on which Python `float()` succeeds (a float, or a
numeric string such as `"0.5"`); `str` covers strings on which `float()`
raises; `tup` is a tuple of floats. -/
inductive MplColor where
  | str (s : String)
  | num (q : ℚ)
  | tup (cs : List ℚ)
deriving DecidableEq

/-- Result of `_convert_color`: a named color from the letter table, an
integer RGB triple, or the input passed through unchanged. -/
inductive BkColor where
  | named (s : String)
  | rgb (r g b : ℤ)
  | same (c : MplColor)
deriving DecidableEq

/-- The `charmap` letter table of `_convert_color`. -/
def charmap : List (String × String) :=
  [("b", "blue"), ("g", "green"), ("r", "red"), ("c", "cyan"),
   ("m", "magenta"), ("y", "yellow"), ("k", "black"), ("w", "white")]

/-- Embedding of `_convert_color`.  Order follows the source: letter table first, then
the `float()` grayscale attempt, then the tuple branch, else pass-through.
A tuple with fewer than three entries raises `IndexError` at
`mplcolor[0..2]`. -/
def convert_color (c : MplColor) : Except String BkColor :=
  match c with
  | .str s =>
    match charmap.lookup s with
    | some name => .ok (.named name)
    | Option.none => .ok (.same c)
  | .num q =>
    if 0 ≤ q ∧ q ≤ 1 then
      .ok (.rgb (pyInt (255 * q)) (pyInt (255 * q)) (pyInt (255 * q)))
    else .ok (.same c)
  | .tup cs =>
    match cs with
    | r :: g :: b :: _ =>
      .ok (.rgb (pyInt (255 * r)) (pyInt (255 * g)) (pyInt (255 * b)))
    | _ => .error "IndexError: tuple index out of range"

/-- A value passed to `_convert_dashes`: a dash-shorthand string, a numeric
dash offset, or an on-off integer tuple. -/
inductive DashSpec where
  | str (s : String)
  | num (q : ℚ)
  | tup (l : List ℤ)
  | none
deriving DecidableEq

/-- The `mpl_dash_map` shorthand table. -/
def mpl_dash_map : List (String × String) :=
  [("-", "solid"), ("--", "dashed"), (":", "dotted"), ("-.", "dashdot")]

/-- Embedding of `_convert_dashes`: `dict.get` with the value itself as fallback, so
non-string keys (offsets, tuples, `None`) pass through unchanged. -/
def convert_dashes : DashSpec → DashSpec
  | .str s =>
    match mpl_dash_map.lookup s with
    | some v => .str v
    | Option.none => .str s
  | d => d

/-- Python `list(...)` applied to the tuple produced by `_convert_dashes`
on an on-off tuple.  The table holds only string keys, so a tuple input is
always returned unchanged; the other branches are unreachable there. -/
def dashTupToList : DashSpec → List ℤ
  | .tup l => l
  | _ => []

/-- A matplotlib `Path` as the converter reads it: its vertex array
(`get_segments` exposes it for a `LineCollection`) and the result of
`Path.to_polygons()` (a list of closed-polygon vertex arrays). -/
structure MplPath where
  vertices : List (ℚ × ℚ)
  polygons : List (List (ℚ × ℚ))
deriving DecidableEq

/-- The attributes a matplotlib collection exposes to the converter. -/
structure MplCollectionData where
  paths : List MplPath
  colors : List (List ℚ)
  facecolors : List (List ℚ)
  edgecolors : List (List ℚ)
  linewidth : List ℚ
  alpha : Option ℚ
  linestyle : List (ℚ × Option (List ℚ))
deriving DecidableEq

/-- The concrete collection class, used by the `isinstance` dispatch. -/
inductive CollKind where
  | lineColl
  | polyColl
deriving DecidableEq, BEq

structure MplCollection where
  kind : CollKind
  data : MplCollectionData
deriving DecidableEq

/-- The attributes a matplotlib `Line2D` exposes to the converter.
`linestyle`/`marker` are `Option String`: `Option.none` is Python `None`. -/
structure Line2D where
  xydata : List (ℚ × ℚ)
  color : MplColor
  linewidth : ℚ
  alpha : Option ℚ
  linestyle : Option String
  marker : Option String
  solid_joinstyle : String
  solid_capstyle : String
  markeredgecolor : MplColor
  markerfacecolor : MplColor
  markeredgewidth : ℚ
  markersize : ℚ
deriving DecidableEq

/-- The attributes a matplotlib `Text` object exposes to `text_props`. -/
structure MplText where
  fontstyle : String
  weight : String
  fontsize : ℚ
  alpha : Option ℚ
  color : MplColor
  verticalalignment : String
  fontfamily : List String
deriving DecidableEq

/-- A matplotlib `Axis` (x or y) as `_make_axis` reads it. -/
structure MplAxisObj where
  label_text : String
  label : MplText
  ticklabels : List MplText
deriving DecidableEq

/-- A matplotlib `Axes` as `axes2plot` reads it.  Gridlines are `Line2D`
objects; note the converter only ever reads `xgridlines`. -/
structure MplAxes where
  axis_bgcolor : MplColor
  title : String
  lines : List Line2D
  collections : List MplCollection
  xaxis : MplAxisObj
  yaxis : MplAxisObj
  xgridlines : List Line2D
  ygridlines : List Line2D
deriving DecidableEq

/-- Embedding of `islice(cycle(orig), None, n)` with `rem` the not-yet-consumed part of
the current repetition of `orig`: take `n` elements, restarting from
`orig` whenever the repetition runs out; an empty `orig` yields an empty
stream. -/
def cycleSliceAux (orig : List α) : List α → Nat → List α
  | _, 0 => []
  | rem, n + 1 =>
    match rem with
    | [] =>
      match orig with
      | [] => []
      | a :: rest => a :: cycleSliceAux orig rest n
    | a :: rest => a :: cycleSliceAux orig rest n

/-- Embedding of `list(islice(cycle(l), None, n))`. -/
def isliceCycle (l : List α) (n : Nat) : List α := cycleSliceAux l l n

/-- Embedding of `_get_props_cycled`: transform the property list with `fx`, then cycle
and slice it to the collection's path count. -/
def get_props_cycled (col : MplCollectionData) (prop : List α) (fx : α → β) : List β :=
  isliceCycle (prop.map fx) col.paths.length

/-- Embedding of `_delete_last_col`: `np.delete(x, -1, axis=1)` on the `(P, M, 2)` stack
of a path's polygons drops each polygon's last vertex (numpy requires the
stack to be rectangular). -/
def delete_last_col (x : List (List (ℚ × ℚ))) : List (List (ℚ × ℚ)) :=
  x.map List.dropLast

/-- Embedding of `np.transpose` restricted to a rectangular 2-D array: entry `(j, p)` of
the result is entry `(p, j)` of the input. -/
def np_transpose2 (a : List (List ℚ)) : List (List ℚ) :=
  (List.range (a.headD []).length).map (fun j => a.map (fun row => row.getD j 0))

/-- One coordinate slice of `np.transpose(_delete_last_col(polygons))`:
`np.transpose` on the `(P, M-1, 2)` array reverses all axes to
`(2, M-1, P)`, and indexing `[0]`/`[1]` selects the coordinate `f`;
entry `(j, p)` is coordinate `f` of vertex `j` of polygon `p`. -/
def polysCoord (f : ℚ × ℚ → ℚ) (path : MplPath) : List (List ℚ) :=
  np_transpose2 ((delete_last_col path.polygons).map (fun poly => poly.map f))

/-- A column value of the shared data source: the converter stores flat
numeric arrays (line/marker geometry), arrays of arrays (multi-line
geometry), arrays of per-polygon coordinate matrices (patches geometry),
and string arrays (cycled hex colors). -/
inductive ColVal where
  | nums (v : List ℚ)
  | numss (v : List (List ℚ))
  | numsss (v : List (List (List ℚ)))
  | strs (v : List String)
deriving DecidableEq

/-- Modelled from the spec: the target data source is an append-only
columnar store; `add` appends one immutable named column and returns its
name, and columns are referenced by name from renderer geometry fields.
Names are modelled as positional indices.  (`bokeh.objects` is not part of
this repository snapshot.) -/
def csAdd (cols : List ColVal) (v : ColVal) : List ColVal × Nat :=
  (cols ++ [v], cols.length)

/-- The mutable converter state: the shared data source's columns and the
two ranges' registered column references.  Modelled from the spec: a
`DataRange1d.sources` list holds the column references appended by
`source.columns(name)`. -/
structure ConvState where
  cols : List ColVal
  xr : List Nat
  yr : List Nat
deriving DecidableEq

structure DataRange1d where
  sources : List Nat
deriving DecidableEq

structure ColumnDataSource where
  cols : List ColVal
deriving DecidableEq

/-- Style fields `line_props` writes onto a line glyph. -/
structure LineProps where
  line_color : MplColor
  line_width : ℚ
  line_alpha : Option ℚ
  line_join : String
  line_cap : String
  line_dash : DashSpec
deriving DecidableEq

/-- The `cap_style_map` of `line_props`; a key outside the table is a
`KeyError`. -/
def cap_style_map : List (String × String) :=
  [("butt", "butt"), ("round", "round"), ("projecting", "square")]

/-- Embedding of `line_props`: copies color/width/alpha/join, translates the cap style
through `cap_style_map` (fatal on a miss), and the dash shorthand through
`_convert_dashes`. -/
def line_props (l2d : Line2D) : Except String LineProps :=
  match cap_style_map.lookup l2d.solid_capstyle with
  | Option.none => .error ("KeyError: " ++ l2d.solid_capstyle)
  | some cap =>
    .ok { line_color := l2d.color, line_width := l2d.linewidth,
          line_alpha := l2d.alpha, line_join := l2d.solid_joinstyle,
          line_cap := cap,
          line_dash := convert_dashes
            (match l2d.linestyle with
             | some s => .str s
             | Option.none => .none) }

/-- Style fields `marker_props` writes onto a marker glyph. -/
structure MarkerProps where
  line_color : MplColor
  fill_color : MplColor
  line_width : ℚ
  size : ℚ
  fill_alpha : Option ℚ
  line_alpha : Option ℚ
deriving DecidableEq

def marker_props (l2d : Line2D) : MarkerProps :=
  { line_color := l2d.markeredgecolor, fill_color := l2d.markerfacecolor,
    line_width := l2d.markeredgewidth, size := l2d.markersize,
    fill_alpha := l2d.alpha, line_alpha := l2d.alpha }

/-- Style fields `multiline_props` writes onto a multi-line glyph; the
cycled color and width lists are themselves data-source columns. -/
structure MLProps where
  line_color : Nat
  line_width : Nat
  line_alpha : Option ℚ
  line_dash_offset : DashSpec
  line_dash : List ℤ
deriving DecidableEq

/-- Embedding of `multiline_props`: cycle colors (through `rgb2hex`) and widths to the
path count, add both as columns, then read the dash offset/on-off pair
from `col.get_linestyle()[0]` (an `IndexError` if the list is empty). -/
def multiline_props (rgb2hex : List ℚ → String) (cols : List ColVal)
    (col : MplCollectionData) : Except String (List ColVal × MLProps) :=
  let colors := get_props_cycled col col.colors rgb2hex
  let widths := get_props_cycled col col.linewidth (fun w => w)
  let a1 := csAdd cols (.strs colors)
  let a2 := csAdd a1.1 (.nums widths)
  match col.linestyle with
  | [] => .error "IndexError: list index out of range"
  | ls0 :: _ =>
    let on_off : List ℤ :=
      match ls0.2 with
      | Option.none => []
      | some l => if l = [] then [] else l.map pyInt
    .ok (a2.1,
      { line_color := a1.2, line_width := a2.2, line_alpha := col.alpha,
        line_dash_offset := convert_dashes (.num ls0.1),
        line_dash := dashTupToList (convert_dashes (.tup on_off)) })

/-- Style fields `patches_props` writes onto a patches glyph. -/
structure PatchProps where
  fill_color : Nat
  line_color : Nat
  line_width : Nat
  line_alpha : Option ℚ
  line_dash_offset : DashSpec
  line_dash : List ℤ
deriving DecidableEq

/-- Embedding of `patches_props`: like `multiline_props` but with cycled face and edge
colors. -/
def patches_props (rgb2hex : List ℚ → String) (cols : List ColVal)
    (col : MplCollectionData) : Except String (List ColVal × PatchProps) :=
  let face_colors := get_props_cycled col col.facecolors rgb2hex
  let a1 := csAdd cols (.strs face_colors)
  let edge_colors := get_props_cycled col col.edgecolors rgb2hex
  let a2 := csAdd a1.1 (.strs edge_colors)
  let widths := get_props_cycled col col.linewidth (fun w => w)
  let a3 := csAdd a2.1 (.nums widths)
  match col.linestyle with
  | [] => .error "IndexError: list index out of range"
  | ls0 :: _ =>
    let on_off : List ℤ :=
      match ls0.2 with
      | Option.none => []
      | some l => if l = [] then [] else l.map pyInt
    .ok (a3.1,
      { fill_color := a1.2, line_color := a2.2, line_width := a3.2,
        line_alpha := col.alpha,
        line_dash_offset := convert_dashes (.num ls0.1),
        line_dash := dashTupToList (convert_dashes (.tup on_off)) })

/-- Text style fields a bokeh object receives from `text_props`. -/
structure TextProps where
  text_font_style : String
  text_font_size : String
  text_alpha : Option ℚ
  text_color : BkColor
  text_baseline : String
  text_font : String
deriving DecidableEq

def alignment_map : List (String × String) :=
  [("center", "middle"), ("top", "top"), ("bottom", "bottom")]

def fontstyle_map : List (String × String) :=
  [("oblique", "italic"), ("normal", "normal"), ("italic", "italic")]

/-- Embedding of `text_props`.  Field order follows the source: font style (lookup,
overridden to bold for bold/heavy weights), pixel size via `"%dpx"`,
alpha, color via `_convert_color`, baseline via `alignment_map` (fatal on
a miss, e.g. `"baseline"`), and the first font-family entry. -/
def text_props (t : MplText) : Except String TextProps :=
  match fontstyle_map.lookup t.fontstyle with
  | Option.none => .error ("KeyError: " ++ t.fontstyle)
  | some fs0 =>
    let fs := if t.weight = "bold" ∨ t.weight = "heavy" then "bold" else fs0
    match convert_color t.color with
    | .error e => .error e
    | .ok c =>
      match alignment_map.lookup t.verticalalignment with
      | Option.none => .error ("KeyError: " ++ t.verticalalignment)
      | some base =>
        match t.fontfamily with
        | [] => .error "IndexError: list index out of range"
        | f :: _ =>
          .ok { text_font_style := fs,
                text_font_size := toString (pyInt t.fontsize) ++ "px",
                text_alpha := t.alpha, text_color := c,
                text_baseline := base, text_font := f }

/-- Embedding of `scipy.signal.lfilter(b, [1], xs)`: a direct-form FIR filter,
`y[n] = Σ_{k ≤ n} b[k]·xs[n-k]` (coefficients beyond `b` contribute 0). -/
def lfilter (b : List ℚ) (xs : List ℚ) : List ℚ :=
  (List.range xs.length).map
    (fun n => ((List.range (n + 1)).map (fun k => b.getD k 0 * xs.getD (n - k) 0)).sum)

/-- Oracles for the external numeric collaborators of `xkcd_line`:
`sqrtO` is elementwise `np.sqrt`; `splO k u` evaluates the degree-`k`
smoothing spline `splprep`/`splev` fitted to the (rescaled) data of the
current call; `randO i` is the `i`-th `np.random.normal(0, 0.01)` draw of
the current call; `firO f1 cutoff f3` is `signal.firwin(f1, cutoff,
window=("kaiser", f3))`. -/
structure SketchOracle where
  sqrtO : ℚ → ℚ
  splO : ℕ → ℚ → ℚ × ℚ
  randO : ℕ → ℚ
  firO : ℕ → ℚ → ℚ → List ℚ

/-- Limit resolution of `xkcd_line`: explicit limits or data min/max, then
each degenerate interval is replaced by the other axis's (already
substituted) interval. -/
def resolveLims (x y : List ℚ) (xlim ylim : Option (ℚ × ℚ)) : (ℚ × ℚ) × (ℚ × ℚ) :=
  let xl := xlim.getD (listMin x, listMax x)
  let yl := ylim.getD (listMin y, listMax y)
  let xl2 := if xl.2 = xl.1 then yl else xl
  let yl2 := if yl.2 = yl.1 then xl2 else yl
  (xl2, yl2)

/-- Embedding of `(v - lim[0]) / (lim[1] - lim[0])`. -/
def scaleBy (lim : ℚ × ℚ) (v : ℚ) : ℚ := (v - lim.1) / (lim.2 - lim.1)

/-- Total Euclidean length of a rescaled polyline:
`np.sum(np.sqrt(dx*dx + dy*dy))` over consecutive differences. -/
def pathDist (sq : ℚ → ℚ) (xs ys : List ℚ) : ℚ :=
  (List.zipWith (fun a b => sq (a * a + b * b))
    (List.zipWith (fun a b => a - b) (xs.drop 1) xs)
    (List.zipWith (fun a b => a - b) (ys.drop 1) ys)).sum

/-- Embedding of `dist_tot` of `xkcd_line`: the path length of the data rescaled by the
resolved limits. -/
def distTot (o : SketchOracle) (x y : List ℚ) (xlim ylim : Option (ℚ × ℚ)) : ℚ :=
  let L := resolveLims x y xlim ylim
  pathDist o.sqrtO (x.map (scaleBy L.1)) (y.map (scaleBy L.2))

/-- Both axes degenerate after limit resolution from data/arguments — the
unguarded case of `xkcd_line` (its documented precondition excludes it). -/
def bothDegenerate (x y : List ℚ) (xlim ylim : Option (ℚ × ℚ)) : Prop :=
  (xlim.getD (listMin x, listMax x)).2 = (xlim.getD (listMin x, listMax x)).1 ∧
  (ylim.getD (listMin y, listMax y)).2 = (ylim.getD (listMin y, listMax y)).1

/-- Every intermediate array of one `xkcd_line` run, in source order. -/
structure SketchRun where
  xlim : ℚ × ℚ
  ylim : ℚ × ℚ
  dist_tot : ℚ
  nu : ℤ
  u : List ℚ
  x_int : List ℚ
  y_int : List ℚ
  dxc : List ℚ
  dyc : List ℚ
  dist : List ℚ
  coeffs : List ℚ
  response : List ℚ
  x_new : List ℚ
  y_new : List ℚ

/-- The body of `xkcd_line` up to (and including) the perpendicular-ish
perturbation of the interior samples, still in rescaled coordinates.
`u = np.arange(-1, Nu+1) / (Nu-1)` has `Nu + 2` entries; the central
differences `dxc`/`dyc`, `dist`, `coeffs` and `response` all have `Nu`
entries; `x_new`/`y_new` are `x_int[1:-1] += response * dy / dist` (note
the swapped-but-unnegated tangent components). -/
def sketchRun (o : SketchOracle) (x y : List ℚ) (xlim ylim : Option (ℚ × ℚ))
    (mag : ℚ) (f1 : ℕ) (f2 : ℚ) (f3 : ℚ) : SketchRun :=
  let L := resolveLims x y xlim ylim
  let dt := distTot o x y xlim ylim
  let nu : ℤ := pyInt (200 * dt)
  let u := (List.range (nu + 2).toNat).map (fun i : ℕ => ((i : ℚ) - 1) / ((nu : ℚ) - 1))
  let k := min 3 (x.length - 1)
  let x_int := u.map (fun t => (o.splO k t).1)
  let y_int := u.map (fun t => (o.splO k t).2)
  let dxc := List.zipWith (fun a b => a - b) (x_int.drop 2) x_int
  let dyc := List.zipWith (fun a b => a - b) (y_int.drop 2) y_int
  let dist := List.zipWith (fun a b => o.sqrtO (a * a + b * b)) dxc dyc
  let coeffs := (List.range (x_int.length - 2)).map (fun i => mag * o.randO i)
  let b := o.firO f1 (f2 * dt) f3
  let response := lfilter b coeffs
  let x_new := List.zipWith (fun m p => m + p) ((x_int.drop 1).dropLast)
    (List.zipWith (fun r p => r * p.1 / p.2) response (dyc.zip dist))
  let y_new := List.zipWith (fun m p => m + p) ((y_int.drop 1).dropLast)
    (List.zipWith (fun r p => r * p.1 / p.2) response (dxc.zip dist))
  ⟨L.1, L.2, dt, nu, u, x_int, y_int, dxc, dyc, dist, coeffs, response, x_new, y_new⟩

/-- Embedding of `xkcd_line`: run the filter and un-rescale the perturbed interior
samples back to the original coordinate range. -/
def xkcd_line (o : SketchOracle) (x y : List ℚ) (xlim ylim : Option (ℚ × ℚ))
    (mag : ℚ) (f1 : ℕ) (f2 : ℚ) (f3 : ℚ) : List ℚ × List ℚ :=
  let R := sketchRun o x y xlim ylim mag f1 f2 f3
  (R.x_new.map (fun v => v * (R.xlim.2 - R.xlim.1) + R.xlim.1),
   R.y_new.map (fun v => v * (R.ylim.2 - R.ylim.1) + R.ylim.1))

/-- The bokeh marker classes of the `marker_map` table. -/
inductive MarkerType where
  | circle
  | square
  | cross
  | triangle
  | invertedTriangle
  | xmarker
  | diamond
  | asterisk
deriving DecidableEq

/-- The `marker_map` symbol table of `_make_marker`. -/
def marker_map : List (String × MarkerType) :=
  [("o", .circle), ("s", .square), ("+", .cross), ("^", .triangle),
   ("v", .invertedTriangle), ("x", .xmarker), ("D", .diamond), ("*", .asterisk)]

/-- A bokeh glyph: one geometry spec (column names into the shared data
source) paired with its style fields.  Each `Glyph` renderer produced by
the converter shares the plot's single data source and its two ranges. -/
inductive GlyphSpec where
  | line (x y : Nat) (props : LineProps)
  | marker (mt : MarkerType) (x y : Nat) (props : MarkerProps)
  | multi_line (xs ys : Nat) (props : MLProps)
  | patches (xs ys : Nat) (props : PatchProps)
deriving DecidableEq

def GlyphSpec.xcol : GlyphSpec → Nat
  | .line x _ _ => x
  | .marker _ x _ _ => x
  | .multi_line xs _ _ => xs
  | .patches xs _ _ => xs

def GlyphSpec.ycol : GlyphSpec → Nat
  | .line _ y _ => y
  | .marker _ _ y _ => y
  | .multi_line _ ys _ => ys
  | .patches _ ys _ => ys

def GlyphSpec.isLine : GlyphSpec → Bool
  | .line _ _ _ => true
  | _ => false

def GlyphSpec.isMarker : GlyphSpec → Bool
  | .marker _ _ _ _ => true
  | _ => false

/-- Embedding of `_make_line`: extract the point arrays, optionally rerun them through
`xkcd_line` (with its default arguments), append both as columns,
register each new column into the matching range, then map the line style
(forcing width 3 in sketch mode). -/
def make_line (o : SketchOracle) (st : ConvState) (l2d : Line2D) (xkcd : Bool) :
    Except String (ConvState × GlyphSpec) :=
  let x := l2d.xydata.map Prod.fst
  let y := l2d.xydata.map Prod.snd
  let xy := if xkcd then xkcd_line o x y Option.none Option.none 1 30 (1/1000) 5 else (x, y)
  let a1 := csAdd st.cols (.nums xy.1)
  let a2 := csAdd a1.1 (.nums xy.2)
  match line_props l2d with
  | .error e => .error e
  | .ok lp =>
    let lp2 := if xkcd then { lp with line_width := 3 } else lp
    .ok (⟨a2.1, st.xr ++ [a1.2], st.yr ++ [a2.2]⟩, .line a1.2 a2.2 lp2)

/-- Embedding of `_make_marker`: an unsupported symbol first emits the non-fatal
warning (the first component models the `warnings.warn` channel) and then
still performs the `marker_map[...]` lookup, which raises; otherwise the
point columns are added and registered as for a line. -/
def make_marker (st : ConvState) (l2d : Line2D) :
    List String × Except String (ConvState × GlyphSpec) :=
  let mk := match l2d.marker with
    | Option.none => Option.none
    | some s => marker_map.lookup s
  let mstr := match l2d.marker with
    | Option.none => "None"
    | some s => s
  let warns := if mk.isNone then ["Unable to handle marker: " ++ mstr] else []
  match mk with
  | Option.none => (warns, .error ("KeyError: " ++ mstr))
  | some mt =>
    let a1 := csAdd st.cols (.nums (l2d.xydata.map Prod.fst))
    let a2 := csAdd a1.1 (.nums (l2d.xydata.map Prod.snd))
    (warns, .ok (⟨a2.1, st.xr ++ [a1.2], st.yr ++ [a2.2]⟩,
                 .marker mt a1.2 a2.2 (marker_props l2d)))

/-- Embedding of `_make_lines_collection`: transpose each segment into coordinate
arrays, optionally rerun each segment through `xkcd_line` (called once for
the x's and once for the y's, as in the source), add the nested arrays as
one column pair, register them, then apply `multiline_props`. -/
def make_lines_collection (o : SketchOracle) (rgb2hex : List ℚ → String)
    (st : ConvState) (col : MplCollectionData) (xkcd : Bool) :
    Except String (ConvState × GlyphSpec) :=
  let segs := col.paths.map (fun p => p.vertices)
  let xs0 := segs.map (fun s => s.map Prod.fst)
  let ys0 := segs.map (fun s => s.map Prod.snd)
  let xs := if xkcd then
      (List.range xs0.length).map
        (fun i => (xkcd_line o (xs0.getD i []) (ys0.getD i []) Option.none Option.none 1 30 (1/1000) 5).1)
    else xs0
  let ys := if xkcd then
      (List.range ys0.length).map
        (fun i => (xkcd_line o (xs0.getD i []) (ys0.getD i []) Option.none Option.none 1 30 (1/1000) 5).2)
    else ys0
  let a1 := csAdd st.cols (.numss xs)
  let a2 := csAdd a1.1 (.numss ys)
  match multiline_props rgb2hex a2.1 col with
  | .error e => .error e
  | .ok pr =>
    .ok (⟨pr.1, st.xr ++ [a1.2], st.yr ++ [a2.2]⟩, .multi_line a1.2 a2.2 pr.2)

/-- Embedding of `_make_polys_collection`: per path, transpose the closing-vertex-
stripped polygon stack, add the two nested coordinate arrays as one
column pair, register them, then apply `patches_props`. -/
def make_polys_collection (rgb2hex : List ℚ → String) (st : ConvState)
    (col : MplCollectionData) : Except String (ConvState × GlyphSpec) :=
  let xs := col.paths.map (polysCoord Prod.fst)
  let ys := col.paths.map (polysCoord Prod.snd)
  let a1 := csAdd st.cols (.numsss xs)
  let a2 := csAdd a1.1 (.numsss ys)
  match patches_props rgb2hex a2.1 col with
  | .error e => .error e
  | .ok pr =>
    .ok (⟨pr.1, st.xr ++ [a1.2], st.yr ++ [a2.2]⟩, .patches a1.2 a2.2 pr.2)

/-- A bokeh `LinearAxis` as populated by `_make_axis`. -/
structure LinearAxis where
  dimension : Nat
  location : String
  axis_label : String
  axis_label_props : TextProps
  major_label_props : TextProps
  axis_line_width : Option ℚ
deriving DecidableEq

/-- The sketch-mode text override shared by the title, axis labels and
tick labels. -/
def xkcdText (tp : TextProps) : TextProps :=
  { tp with text_font := "Comic Sans MS, Textile, cursive",
            text_font_style := "bold", text_color := .named "black" }

/-- Embedding of `_make_axis`: label text properties from the axis label, tick label
properties from the first tick label (`IndexError` when there is none),
and the sketch-mode overrides. -/
def make_axis (axobj : MplAxisObj) (dimension : Nat) (xkcd : Bool) :
    Except String LinearAxis :=
  match text_props axobj.label with
  | .error e => .error e
  | .ok lbl =>
    match axobj.ticklabels with
    | [] => .error "IndexError: list index out of range"
    | t0 :: _ =>
      match text_props t0 with
      | .error e => .error e
      | .ok tick =>
        let base : LinearAxis :=
          { dimension, location := "min", axis_label := axobj.label_text,
            axis_label_props := lbl, major_label_props := tick,
            axis_line_width := Option.none }
        .ok (if xkcd then
              { base with axis_line_width := some 3,
                          axis_label_props := xkcdText lbl,
                          major_label_props := xkcdText tick }
             else base)

/-- A bokeh `Grid` as populated by `_make_grid`. -/
structure GridObj where
  dimension : Nat
  axis : LinearAxis
  grid_line_color : MplColor
  grid_line_width : ℚ
deriving DecidableEq

/-- Embedding of `_make_grid`: grid line color and width are read from the gridline
`Line2D` the caller passes in. -/
def make_grid (grid : Line2D) (axis : LinearAxis) (dimension : Nat) : GridObj :=
  { dimension, axis, grid_line_color := grid.color, grid_line_width := grid.linewidth }

inductive Tool where
  | pan (dimensions : List String)
  | wheel_zoom (dimensions : List String)
deriving DecidableEq

/-- The fully populated target plot returned by `axes2plot`.  The axes and
grids the source constructs with a `plot=plot` backref are collected here
(modelled from the spec: the plot owns its axes and grids). -/
structure Plot where
  title : String
  background_fill : MplColor
  title_text_font : Option String
  title_text_font_style : Option String
  title_text_color : Option String
  x_range : DataRange1d
  y_range : DataRange1d
  data_sources : List ColumnDataSource
  renderers : List GlyphSpec
  axes : List LinearAxis
  grids : List GridObj
  tools : List Tool
deriving DecidableEq

/-- The classification predicate of `axes2plot` line 50/51: a style value
is present unless it is one of `("", " ", "None", "none", None)`. -/
def stylePresent : Option String → Bool
  | Option.none => false
  | some s => !(s == "" || s == " " || s == "None" || s == "none")

/-- Run one `_make_*` conversion over a list of source elements,
threading the shared state and collecting the renderers (the list
comprehensions / eager `extend` calls of `axes2plot`). -/
def convertAll (mk : ConvState → α → Except String (ConvState × GlyphSpec)) :
    ConvState → List α → Except String (ConvState × List GlyphSpec)
  | st, [] => .ok (st, [])
  | st, a :: rest =>
    match mk st a with
    | .error e => .error e
    | .ok p =>
      match convertAll mk p.1 rest with
      | .error e => .error e
      | .ok q => .ok (q.1, p.2 :: q.2)

/-- Embedding of `axes2plot`.  The collection filter of line 52 compares `get_paths()`
(a list) against strings and `None` and thus never drops anything, so all
collections pass; the `_PLOTLIST` gallery accumulation is out of scope.
Note both grids read `ax.get_xgridlines()[0]`. -/
def axes2plot (o : SketchOracle) (rgb2hex : List ℚ → String) (ax : MplAxes)
    (xkcd : Bool) : Except String Plot :=
  let background_fill :=
    if ax.axis_bgcolor = .str "w" then MplColor.str "white" else ax.axis_bgcolor
  let lines := ax.lines.filter (fun l => stylePresent l.linestyle)
  let markers := ax.lines.filter (fun m => stylePresent m.marker)
  let cols := ax.collections
  match convertAll (fun st l => make_line o st l xkcd) ⟨[], [], []⟩ lines with
  | .error e => .error e
  | .ok s1 =>
  match convertAll (fun st m => (make_marker st m).2) s1.1 markers with
  | .error e => .error e
  | .ok s2 =>
  match convertAll (fun st c => make_lines_collection o rgb2hex st c.data xkcd) s2.1
      (cols.filter (fun c => c.kind == CollKind.lineColl)) with
  | .error e => .error e
  | .ok s3 =>
  match convertAll (fun st c => make_polys_collection rgb2hex st c.data) s3.1
      (cols.filter (fun c => c.kind == CollKind.polyColl)) with
  | .error e => .error e
  | .ok s4 =>
  match make_axis ax.xaxis 0 xkcd with
  | .error e => .error e
  | .ok xaxis =>
  match make_axis ax.yaxis 1 xkcd with
  | .error e => .error e
  | .ok yaxis =>
  match ax.xgridlines with
  | [] => .error "IndexError: list index out of range"
  | g :: _ =>
    .ok { title := ax.title, background_fill,
          title_text_font := if xkcd then some "Comic Sans MS, Textile, cursive" else Option.none,
          title_text_font_style := if xkcd then some "bold" else Option.none,
          title_text_color := if xkcd then some "black" else Option.none,
          x_range := ⟨s4.1.xr⟩, y_range := ⟨s4.1.yr⟩,
          data_sources := [⟨s4.1.cols⟩],
          renderers := s1.2 ++ s2.2 ++ s3.2 ++ s4.2,
          axes := [xaxis, yaxis],
          grids := [make_grid g xaxis 0, make_grid g yaxis 1],
          tools := [.pan ["width", "height"], .wheel_zoom ["width", "height"]] }

/-- The data-source / range invariant of one renderer against the plot it
belongs to: both geometry fields name existing columns of the plot's
(single) data source, the x column is listed by the x range and the y
column by the y range. -/
def rendererResolves (p : Plot) (r : GlyphSpec) : Prop :=
  r.xcol < (p.data_sources.headD ⟨[]⟩).cols.length ∧
  r.ycol < (p.data_sources.headD ⟨[]⟩).cols.length ∧
  r.xcol ∈ p.x_range.sources ∧ r.ycol ∈ p.y_range.sources

/-- State extension: a later converter state has at least as many columns
and keeps every registered range reference. -/
def stMono (s t : ConvState) : Prop :=
  s.cols.length ≤ t.cols.length ∧ (∀ n ∈ s.xr, n ∈ t.xr) ∧ (∀ n ∈ s.yr, n ∈ t.yr)

/-- A renderer is good for a converter state when its geometry columns
exist and are registered in the matching ranges. -/
def goodR (s : ConvState) (r : GlyphSpec) : Prop :=
  r.xcol < s.cols.length ∧ r.ycol < s.cols.length ∧ r.xcol ∈ s.xr ∧ r.ycol ∈ s.yr

/-! Concrete fixtures for the closed instances below.  All numeric fields
are integer-valued, keeping the closed computations inside the
kernel-reducible fragment of `ℚ`. -/

def l2dBase : Line2D :=
  { xydata := [(0, 0), (1, 1), (2, 0)], color := .str "r", linewidth := 1,
    alpha := Option.none, linestyle := some "-", marker := Option.none,
    solid_joinstyle := "round", solid_capstyle := "butt",
    markeredgecolor := .str "k", markerfacecolor := .str "r",
    markeredgewidth := 1, markersize := 6 }

def cexLineNONE : Line2D := { l2dBase with linestyle := some "NONE" }

def lineBothStyles : Line2D := { l2dBase with marker := some "o" }

def lineMarkerOnly : Line2D :=
  { l2dBase with linestyle := some "none", marker := some "o" }

def lineLineOnly : Line2D := { l2dBase with marker := some "none" }

def badCapLine : Line2D := { l2dBase with solid_capstyle := "weird" }

def badMarkerLine : Line2D := { l2dBase with marker := some "h" }

def wText : MplText :=
  { fontstyle := "normal", weight := "normal", fontsize := 12,
    alpha := Option.none, color := .str "k", verticalalignment := "center",
    fontfamily := ["sans-serif"] }

def badAlignText : MplText := { wText with verticalalignment := "baseline" }

def wAxisObj : MplAxisObj :=
  { label_text := "x", label := wText, ticklabels := [wText] }

def wGridX : Line2D :=
  { l2dBase with color := .str "r", linewidth := 2, linestyle := some ":" }

def wGridY : Line2D :=
  { l2dBase with color := .str "g", linewidth := 1, linestyle := some ":" }

def wOracle : SketchOracle :=
  ⟨fun _ => 0, fun _ _ => (0, 0), fun _ => 0, fun _ _ _ => []⟩

def wHex : List ℚ → String := fun _ => "#000000"

def wAxes : MplAxes :=
  { axis_bgcolor := .str "w", title := "plot", lines := [l2dBase],
    collections := [], xaxis := wAxisObj, yaxis := wAxisObj,
    xgridlines := [wGridX], ygridlines := [wGridY] }

def axWithLine (l : Line2D) : MplAxes := { wAxes with lines := [l] }

def defaultLineProps : LineProps :=
  { line_color := .str "", line_width := 0, line_alpha := Option.none,
    line_join := "", line_cap := "", line_dash := .none }

def defaultGlyph : GlyphSpec := .line 0 0 defaultLineProps

def defaultPlot : Plot :=
  { title := "", background_fill := .str "", title_text_font := Option.none,
    title_text_font_style := Option.none, title_text_color := Option.none,
    x_range := ⟨[]⟩, y_range := ⟨[]⟩, data_sources := [], renderers := [],
    axes := [], grids := [], tools := [] }

def c1plot : Plot := (axes2plot wOracle wHex wAxes false).toOption.getD defaultPlot

def c1rend : GlyphSpec := c1plot.renderers.headD defaultGlyph

def c8plot : Plot := (axes2plot wOracle wHex wAxes false).toOption.getD defaultPlot

def sqPath : MplPath := ⟨[], [[(0, 0), (1, 0), (1, 1), (0, 1), (0, 0)]]⟩

def sqColl : MplCollectionData :=
  { paths := [sqPath], colors := [[0, 0, 0, 1]], facecolors := [[0, 0, 0, 1]],
    edgecolors := [[0, 0, 0, 1]], linewidth := [1], alpha := Option.none,
    linestyle := [(0, Option.none)] }

def c6res : ConvState × GlyphSpec :=
  (make_polys_collection wHex ⟨[], [], []⟩ sqColl).toOption.getD
    (⟨[], [], []⟩, defaultGlyph)

def col5 : MplCollectionData :=
  { paths := [sqPath, sqPath, sqPath, sqPath, sqPath], colors := [],
    facecolors := [], edgecolors := [], linewidth := [],
    alpha := Option.none, linestyle := [] }

def c5Oracle : SketchOracle :=
  ⟨fun _ => 1/100, fun _ t => (t, t), fun _ => 1, fun _ _ _ => [1]⟩

def c5Run : SketchRun :=
  sketchRun c5Oracle [0, 1] [0, 1] (some (0, 1)) (some (0, 1)) 1 30 (1/1000) 5

def c4Oracle : SketchOracle :=
  ⟨fun q => |q|, fun _ t => (t, t), fun _ => 0, fun _ _ _ => []⟩

def c3plotM : Plot :=
  (axes2plot wOracle wHex (axWithLine lineMarkerOnly) false).toOption.getD defaultPlot

def lineBoth2 : Line2D := { l2dBase with linestyle := some "--", marker := some "s" }

def c3plotB : Plot :=
  (axes2plot wOracle wHex (axWithLine lineBoth2) false).toOption.getD defaultPlot

/-! General lemmas. -/

theorem pyInt_def (q : ℚ) : pyInt q = if 0 ≤ q then ⌊q⌋ else -⌊-q⌋ := rfl

theorem length_flatten_replicate {α : Type u} (n : ℕ) (l : List α) :
    ((List.replicate n l).flatten).length = n * l.length := by
  induction n with
  | zero => simp
  | succ n ih =>
    simp only [List.replicate_succ, List.flatten_cons, List.length_append, ih,
      Nat.succ_mul]
    omega

theorem cycleSliceAux_eq {α : Type u} (a : α) (t : List α) :
    ∀ (n : ℕ) (rem : List α),
      cycleSliceAux (a :: t) rem n = (rem ++ (List.replicate n (a :: t)).flatten).take n := by
  intro n
  induction n with
  | zero => intro rem; simp [cycleSliceAux]
  | succ n ih =>
    intro rem
    cases rem with
    | nil =>
      simp only [cycleSliceAux, List.nil_append, List.replicate_succ,
        List.flatten_cons, List.cons_append, List.take_succ_cons]
      exact congrArg (a :: ·) (ih t)
    | cons b r =>
      simp only [cycleSliceAux, List.cons_append, List.take_succ_cons]
      rw [ih r]
      congr 1
      rw [List.replicate_succ' n (a :: t), List.flatten_append]
      have hflat : ([a :: t] : List (List α)).flatten = a :: t := by simp
      rw [hflat, ← List.append_assoc]
      have h2 : n ≤ n * (t.length + 1) := Nat.le_mul_of_pos_right n (Nat.succ_pos t.length)
      have hlen : n ≤ (r ++ (List.replicate n (a :: t)).flatten).length := by
        simp only [List.length_append, length_flatten_replicate, List.length_cons]
        omega
      rw [List.take_append_of_le_length hlen]

theorem isliceCycle_length {α : Type u} (a : α) (t : List α) (n : ℕ) :
    (isliceCycle (a :: t) n).length = n := by
  rw [isliceCycle, cycleSliceAux_eq a t n (a :: t), List.length_take]
  simp only [List.length_append, List.length_cons, length_flatten_replicate]
  have h2 : n ≤ n * (t.length + 1) := Nat.le_mul_of_pos_right n (Nat.succ_pos t.length)
  omega

theorem flatten_replicate_getD {α : Type u} (l : List α) (d : α) :
    ∀ (m i : ℕ), i < m * l.length →
      ((List.replicate m l).flatten).getD i d = l.getD (i % l.length) d := by
  intro m
  induction m with
  | zero => intro i hi; simp at hi
  | succ m ih =>
    intro i hi
    rw [List.replicate_succ, List.flatten_cons]
    by_cases h : i < l.length
    · rw [List.getD_append _ _ _ _ h, Nat.mod_eq_of_lt h]
    · push_neg at h
      rw [List.getD_append_right _ _ _ _ h]
      rw [Nat.succ_mul] at hi
      rw [ih (i - l.length) (by omega)]
      rw [Nat.mod_eq_sub_mod h]

theorem isliceCycle_getD {α : Type u} (a : α) (t : List α) (n i : ℕ) (hi : i < n) (d : α) :
    (isliceCycle (a :: t) n).getD i d = (a :: t).getD (i % (a :: t).length) d := by
  rw [isliceCycle, cycleSliceAux_eq a t n (a :: t)]
  rw [List.getD_eq_getElem?_getD, List.getElem?_take, if_pos hi,
    ← List.getD_eq_getElem?_getD]
  have hrep : (a :: t) ++ (List.replicate n (a :: t)).flatten
      = (List.replicate (n + 1) (a :: t)).flatten := by
    rw [List.replicate_succ, List.flatten_cons]
  rw [hrep]
  apply flatten_replicate_getD
  have h2 : n + 1 ≤ (n + 1) * (a :: t).length :=
    Nat.le_mul_of_pos_right (n + 1) (by simp)
  omega

/-- Claim C2: for every non-empty source property list of length `k` and a
collection with `n` paths, `_get_props_cycled` returns exactly `n`
elements, element `i` being the transformed source element at index
`i % k`; in particular a 2-element source with `n = 5` yields
`[a, b, a, b, a]`. -/
theorem c2_props_cycled_spec {α β : Type} (col : MplCollectionData) (prop : List α)
    (fx : α → β) (hk : prop ≠ []) (d : β) (d0 : α) :
    (get_props_cycled col prop fx).length = col.paths.length ∧
    (∀ i, i < col.paths.length →
      (get_props_cycled col prop fx).getD i d = fx (prop.getD (i % prop.length) d0)) ∧
    (∀ (a b : α) (col5 : MplCollectionData), col5.paths.length = 5 →
      get_props_cycled col5 [a, b] (fun z => z) = [a, b, a, b, a]) := by
  obtain ⟨p, pt, rfl⟩ := List.exists_cons_of_ne_nil hk
  refine ⟨?_, ?_, ?_⟩
  · rw [get_props_cycled, List.map_cons, isliceCycle_length]
  · intro i hi
    rw [get_props_cycled, List.map_cons, isliceCycle_getD _ _ _ _ hi]
    have hmod : i % (p :: pt).length < (p :: pt).length :=
      Nat.mod_lt _ (Nat.succ_pos _)
    have key : ∀ j : ℕ, j < (p :: pt).length →
        (List.map fx (p :: pt)).getD j d = fx ((p :: pt).getD j d0) := by
      intro j hj
      rw [List.getD_eq_getElem _ _ (by simpa using hj), List.getElem_map,
        ← List.getD_eq_getElem _ d0 hj]
    simpa [List.map_cons, List.length_cons, List.length_map]
      using key (i % (p :: pt).length) hmod
  · intro a b col5 h5
    rw [get_props_cycled, h5]
    rfl

/-- Claim C10: for an empty source property list, `_get_props_cycled`
returns the empty list — not a list of the collection's path count — so an
empty style sequence silently produces empty style columns. -/
theorem c10_empty_props_empty {α β : Type} (col : MplCollectionData) (fx : α → β) :
    get_props_cycled col ([] : List α) fx = [] ∧
    (get_props_cycled col ([] : List α) fx).length = 0 := by
  have h : get_props_cycled col ([] : List α) fx = [] := by
    rw [get_props_cycled, List.map_nil]
    cases col.paths.length with
    | zero => rfl
    | succ n => rfl
  exact ⟨h, by rw [h]; rfl⟩

/-- Claim C2 witness: a concrete 2-element property list cycled over a
5-path collection. -/
theorem c2_props_cycled_spec_witness :
    (get_props_cycled col5 [10, 20] (fun z : ℕ => z)).length = 5 ∧
    (get_props_cycled col5 [10, 20] (fun z : ℕ => z)).getD 4 0 =
      (fun z : ℕ => z) ([10, 20].getD (4 % [10, 20].length) 0) := by
  refine ⟨(c2_props_cycled_spec col5 [10, 20] (fun z => z) (by decide) 0 0).1, ?_⟩
  exact (c2_props_cycled_spec col5 [10, 20] (fun z => z) (by decide) 0 0).2.1 4 (by decide)

/-- Claim C9 counterexample: an RGBA 4-tuple is not a 3-tuple of floats in
`[0,1]`, so per the claim it should pass through unchanged; the code
converts it to an RGB triple instead. -/
theorem c9_passthrough_counterexample :
    convert_color (.tup [0, 0, 0, 1]) = .ok (.rgb 0 0 0) ∧
    (Except.ok (BkColor.rgb 0 0 0) : Except String BkColor) ≠
      (Except.ok (BkColor.same (.tup [0, 0, 0, 1])) : Except String BkColor) := by
  constructor
  · rw [show convert_color (.tup [0, 0, 0, 1])
        = .ok (.rgb (pyInt (255 * 0)) (pyInt (255 * 0)) (pyInt (255 * 0))) from rfl]
    norm_num [pyInt_def]
  · simp

/-- Claim C9 (amended): the letter table and the grayscale/tuple scaling
behave as claimed, but the tuple branch converts every tuple with at least
three entries — per-channel `int(255·c)` on the first three, including
values outside `[0,1]` and longer (RGBA) tuples — and only non-tuple
inputs outside the first two rules pass through unchanged. -/
theorem c9_convert_color_amended :
    (∀ s t : String, (s, t) ∈ charmap → convert_color (.str s) = .ok (.named t)) ∧
    (∀ q : ℚ, 0 ≤ q → q ≤ 1 →
      convert_color (.num q) =
        .ok (.rgb (pyInt (255 * q)) (pyInt (255 * q)) (pyInt (255 * q)))) ∧
    convert_color (.num (1/2)) = .ok (.rgb 127 127 127) ∧
    (∀ (r g b : ℚ) (rest : List ℚ),
      convert_color (.tup (r :: g :: b :: rest)) =
        .ok (.rgb (pyInt (255 * r)) (pyInt (255 * g)) (pyInt (255 * b)))) ∧
    convert_color (.tup [1, 0, 0]) = .ok (.rgb 255 0 0) ∧
    (∀ s : String, charmap.lookup s = Option.none →
      convert_color (.str s) = .ok (.same (.str s))) ∧
    (∀ q : ℚ, ¬(0 ≤ q ∧ q ≤ 1) → convert_color (.num q) = .ok (.same (.num q))) := by
  refine ⟨?_, ?_, ?_, ?_, ?_, ?_, ?_⟩
  · intro s t h
    fin_cases h <;> rfl
  · intro q h0 h1
    rw [convert_color, if_pos ⟨h0, h1⟩]
  · have h12 : (0 : ℚ) ≤ 1/2 ∧ (1/2 : ℚ) ≤ 1 := by norm_num
    rw [convert_color, if_pos h12]
    norm_num [pyInt_def]
  · intro r g b rest
    rfl
  · rw [show convert_color (.tup [1, 0, 0])
        = .ok (.rgb (pyInt (255 * 1)) (pyInt (255 * 0)) (pyInt (255 * 0))) from rfl]
    norm_num [pyInt_def]
  · intro s h
    rw [convert_color, h]
  · intro q h
    rw [convert_color, if_neg h]

/-- Claim C9 witness: the amended rules applied at concrete inputs. -/
theorem c9_convert_color_amended_witness :
    convert_color (.str "g") = .ok (.named "green") ∧
    convert_color (.num (1/4)) = .ok (.rgb 63 63 63) ∧
    convert_color (.str "blue") = .ok (.same (.str "blue")) ∧
    convert_color (.num 2) = .ok (.same (.num 2)) := by
  refine ⟨c9_convert_color_amended.1 "g" "green" (by decide), ?_,
    c9_convert_color_amended.2.2.2.2.2.1 "blue" (by decide),
    c9_convert_color_amended.2.2.2.2.2.2 2 (by norm_num)⟩
  rw [c9_convert_color_amended.2.1 (1/4) (by norm_num) (by norm_num)]
  norm_num [pyInt_def]

/-- Claim C3 counterexample: `"NONE"` is `"none"` in upper case, yet the
classification of `axes2plot` treats it as a present linestyle — the line
is kept by the plain-line filter (while the exact spelling `"none"` is
dropped) — so a case variant of `"none"` does not count as "not present". -/
theorem c3_any_case_counterexample :
    stylePresent (some "NONE") = true ∧
    stylePresent (some "none") = false ∧
    List.filter (fun l => stylePresent l.linestyle) [cexLineNONE] = [cexLineNONE] := by
  refine ⟨by decide, by decide, by decide⟩

/-! State-extension lemmas for the converter passes. -/

theorem stMono_refl (s : ConvState) : stMono s s :=
  ⟨le_refl _, fun _ h => h, fun _ h => h⟩

theorem stMono_trans {a b c : ConvState} (h1 : stMono a b) (h2 : stMono b c) :
    stMono a c :=
  ⟨le_trans h1.1 h2.1, fun n hn => h2.2.1 n (h1.2.1 n hn),
   fun n hn => h2.2.2 n (h1.2.2 n hn)⟩

theorem goodR_mono {a b : ConvState} {r : GlyphSpec} (hg : goodR a r)
    (hm : stMono a b) : goodR b r :=
  ⟨lt_of_lt_of_le hg.1 hm.1, lt_of_lt_of_le hg.2.1 hm.1,
   hm.2.1 _ hg.2.2.1, hm.2.2 _ hg.2.2.2⟩

theorem make_line_good {o : SketchOracle} {st : ConvState} {l2d : Line2D}
    {xkcd : Bool} {st' : ConvState} {r : GlyphSpec}
    (h : make_line o st l2d xkcd = .ok (st', r)) : stMono st st' ∧ goodR st' r := by
  simp only [make_line, csAdd] at h
  cases hlp : line_props l2d with
  | error e => rw [hlp] at h; exact Except.noConfusion h
  | ok lp =>
    simp only [hlp, Except.ok.injEq, Prod.mk.injEq] at h
    obtain ⟨h1, h2⟩ := h
    subst h1; subst h2
    constructor
    · refine ⟨?_, fun n hn => List.mem_append_left _ hn,
        fun n hn => List.mem_append_left _ hn⟩
      simp only [List.length_append, List.length_cons, List.length_nil]
      omega
    · refine ⟨?_, ?_, by simp [GlyphSpec.xcol], by simp [GlyphSpec.ycol]⟩
      · simp only [GlyphSpec.xcol, List.length_append, List.length_cons, List.length_nil]
        omega
      · simp only [GlyphSpec.ycol, List.length_append, List.length_cons, List.length_nil]
        omega

theorem make_marker_good {st : ConvState} {l2d : Line2D} {st' : ConvState}
    {r : GlyphSpec} (h : (make_marker st l2d).2 = .ok (st', r)) :
    stMono st st' ∧ goodR st' r := by
  cases hm : l2d.marker with
  | none =>
    simp only [make_marker, hm, csAdd] at h
    exact Except.noConfusion h
  | some s =>
    cases hlk : marker_map.lookup s with
    | none =>
      simp only [make_marker, hm, hlk, csAdd] at h
      exact Except.noConfusion h
    | some mt =>
      simp only [make_marker, hm, hlk, csAdd, Except.ok.injEq, Prod.mk.injEq] at h
      obtain ⟨h1, h2⟩ := h
      subst h1; subst h2
      constructor
      · refine ⟨?_, fun n hn => List.mem_append_left _ hn,
          fun n hn => List.mem_append_left _ hn⟩
        simp only [List.length_append, List.length_cons, List.length_nil]
        omega
      · refine ⟨?_, ?_, by simp [GlyphSpec.xcol], by simp [GlyphSpec.ycol]⟩
        · simp only [GlyphSpec.xcol, List.length_append, List.length_cons, List.length_nil]
          omega
        · simp only [GlyphSpec.ycol, List.length_append, List.length_cons, List.length_nil]
          omega

theorem multiline_props_cols {rgb2hex : List ℚ → String} {cols : List ColVal}
    {col : MplCollectionData} {pr : List ColVal × MLProps}
    (h : multiline_props rgb2hex cols col = .ok pr) :
    ∃ c w, pr.1 = (cols ++ [c]) ++ [w] := by
  simp only [multiline_props, csAdd] at h
  split at h
  · exact Except.noConfusion h
  · simp only [Except.ok.injEq] at h
    subst h
    exact ⟨_, _, rfl⟩

theorem patches_props_cols {rgb2hex : List ℚ → String} {cols : List ColVal}
    {col : MplCollectionData} {pr : List ColVal × PatchProps}
    (h : patches_props rgb2hex cols col = .ok pr) :
    ∃ c1 c2 c3, pr.1 = ((cols ++ [c1]) ++ [c2]) ++ [c3] := by
  simp only [patches_props, csAdd] at h
  split at h
  · exact Except.noConfusion h
  · simp only [Except.ok.injEq] at h
    subst h
    exact ⟨_, _, _, rfl⟩

theorem make_lines_collection_good {o : SketchOracle} {rgb2hex : List ℚ → String}
    {st : ConvState} {col : MplCollectionData} {xkcd : Bool}
    {st' : ConvState} {r : GlyphSpec}
    (h : make_lines_collection o rgb2hex st col xkcd = .ok (st', r)) :
    stMono st st' ∧ goodR st' r := by
  simp only [make_lines_collection, csAdd] at h
  split at h
  · exact Except.noConfusion h
  · rename_i pr heq
    simp only [Except.ok.injEq, Prod.mk.injEq] at h
    obtain ⟨h1, h2⟩ := h
    subst h1; subst h2
    obtain ⟨c, w, hcols⟩ := multiline_props_cols heq
    constructor
    · refine ⟨?_, fun n hn => List.mem_append_left _ hn,
        fun n hn => List.mem_append_left _ hn⟩
      rw [hcols]
      simp only [List.length_append, List.length_cons, List.length_nil]
      omega
    · refine ⟨?_, ?_, by simp [GlyphSpec.xcol], by simp [GlyphSpec.ycol]⟩
      · rw [GlyphSpec.xcol, hcols]
        simp only [List.length_append, List.length_cons, List.length_nil]
        omega
      · rw [GlyphSpec.ycol, hcols]
        simp only [List.length_append, List.length_cons, List.length_nil]
        omega

theorem make_polys_collection_good {rgb2hex : List ℚ → String}
    {st : ConvState} {col : MplCollectionData} {st' : ConvState} {r : GlyphSpec}
    (h : make_polys_collection rgb2hex st col = .ok (st', r)) :
    stMono st st' ∧ goodR st' r := by
  simp only [make_polys_collection, csAdd] at h
  split at h
  · exact Except.noConfusion h
  · rename_i pr heq
    simp only [Except.ok.injEq, Prod.mk.injEq] at h
    obtain ⟨h1, h2⟩ := h
    subst h1; subst h2
    obtain ⟨c1, c2, c3, hcols⟩ := patches_props_cols heq
    constructor
    · refine ⟨?_, fun n hn => List.mem_append_left _ hn,
        fun n hn => List.mem_append_left _ hn⟩
      rw [hcols]
      simp only [List.length_append, List.length_cons, List.length_nil]
      omega
    · refine ⟨?_, ?_, by simp [GlyphSpec.xcol], by simp [GlyphSpec.ycol]⟩
      · rw [GlyphSpec.xcol, hcols]
        simp only [List.length_append, List.length_cons, List.length_nil]
        omega
      · rw [GlyphSpec.ycol, hcols]
        simp only [List.length_append, List.length_cons, List.length_nil]
        omega

theorem convertAll_good {α : Type} {mk : ConvState → α → Except String (ConvState × GlyphSpec)}
    (H : ∀ st a st' r, mk st a = .ok (st', r) → stMono st st' ∧ goodR st' r) :
    ∀ (l : List α) (st : ConvState) (p : ConvState × List GlyphSpec),
      convertAll mk st l = .ok p → stMono st p.1 ∧ ∀ r ∈ p.2, goodR p.1 r := by
  intro l
  induction l with
  | nil =>
    intro st p h
    rw [convertAll] at h
    injection h with h2
    subst h2
    exact ⟨stMono_refl st, by simp⟩
  | cons a rest ih =>
    intro st p h
    rw [convertAll] at h
    cases hmk : mk st a with
    | error e => rw [hmk] at h; exact Except.noConfusion h
    | ok p1 =>
      simp only [hmk] at h
      cases hca : convertAll mk p1.1 rest with
      | error e => rw [hca] at h; exact Except.noConfusion h
      | ok q =>
        rw [hca] at h
        injection h with h2
        subst h2
        obtain ⟨hm1, hg1⟩ := H st a p1.1 p1.2 (by rw [hmk])
        obtain ⟨hm2, hg2⟩ := ih p1.1 q hca
        refine ⟨stMono_trans hm1 hm2, ?_⟩
        intro r hr
        rcases List.mem_cons.mp hr with hr | hr
        · subst hr; exact goodR_mono hg1 hm2
        · exact hg2 r hr

theorem axes2plot_ok_elim {o : SketchOracle} {rgb2hex : List ℚ → String}
    {ax : MplAxes} {xkcd : Bool} {plot : Plot}
    (h : axes2plot o rgb2hex ax xkcd = .ok plot) :
    ∃ (s1 s2 s3 s4 : ConvState × List GlyphSpec) (xaxis yaxis : LinearAxis)
      (g : Line2D) (gtail : List Line2D),
      convertAll (fun st l => make_line o st l xkcd) ⟨[], [], []⟩
          (ax.lines.filter (fun l => stylePresent l.linestyle)) = .ok s1 ∧
      convertAll (fun st m => (make_marker st m).2) s1.1
          (ax.lines.filter (fun m => stylePresent m.marker)) = .ok s2 ∧
      convertAll (fun st c => make_lines_collection o rgb2hex st c.data xkcd) s2.1
          (ax.collections.filter (fun c => c.kind == CollKind.lineColl)) = .ok s3 ∧
      convertAll (fun st c => make_polys_collection rgb2hex st c.data) s3.1
          (ax.collections.filter (fun c => c.kind == CollKind.polyColl)) = .ok s4 ∧
      make_axis ax.xaxis 0 xkcd = .ok xaxis ∧
      make_axis ax.yaxis 1 xkcd = .ok yaxis ∧
      ax.xgridlines = g :: gtail ∧
      plot.renderers = s1.2 ++ s2.2 ++ s3.2 ++ s4.2 ∧
      plot.data_sources = [⟨s4.1.cols⟩] ∧
      plot.x_range = ⟨s4.1.xr⟩ ∧ plot.y_range = ⟨s4.1.yr⟩ ∧
      plot.grids = [make_grid g xaxis 0, make_grid g yaxis 1] := by
  simp only [axes2plot] at h
  split at h
  · exact Except.noConfusion h
  · rename_i s1 h1
    split at h
    · exact Except.noConfusion h
    · rename_i s2 h2
      split at h
      · exact Except.noConfusion h
      · rename_i s3 h3
        split at h
        · exact Except.noConfusion h
        · rename_i s4 h4
          split at h
          · exact Except.noConfusion h
          · rename_i xaxis h5
            split at h
            · exact Except.noConfusion h
            · rename_i yaxis h6
              split at h
              · exact Except.noConfusion h
              · rename_i g gtail h7
                injection h with h8
                subst h8
                exact ⟨s1, s2, s3, s4, xaxis, yaxis, g, gtail, h1, h2, h3, h4,
                  h5, h6, h7, rfl, rfl, rfl, rfl, rfl⟩

/-- Claim C1: after every successful conversion, each renderer's geometry
columns were added to the shared data source and registered into the
ranges: both geometry fields resolve to existing columns of the plot's
data source, with the x column listed by the x range and the y column by
the y range. -/
theorem c1_renderer_columns_resolve (o : SketchOracle) (rgb2hex : List ℚ → String)
    (ax : MplAxes) (xkcd : Bool) (plot : Plot)
    (h : axes2plot o rgb2hex ax xkcd = .ok plot) :
    ∀ r ∈ plot.renderers, rendererResolves plot r := by
  obtain ⟨s1, s2, s3, s4, xaxis, yaxis, g, gtail, h1, h2, h3, h4, _, _, _,
    hrend, hds, hxr, hyr, _⟩ := axes2plot_ok_elim h
  have H1 := convertAll_good (fun st a st' r hh => make_line_good hh) _ _ _ h1
  have H2 := convertAll_good (fun st a st' r hh => make_marker_good hh) _ _ _ h2
  have H3 := convertAll_good (fun st a st' r hh => make_lines_collection_good hh) _ _ _ h3
  have H4 := convertAll_good (fun st a st' r hh => make_polys_collection_good hh) _ _ _ h4
  intro r hr
  rw [hrend] at hr
  have hgood : goodR s4.1 r := by
    rcases List.mem_append.mp hr with hr | hr4
    · rcases List.mem_append.mp hr with hr | hr3
      · rcases List.mem_append.mp hr with hr1 | hr2
        · exact goodR_mono (goodR_mono (goodR_mono (H1.2 r hr1) H2.1) H3.1) H4.1
        · exact goodR_mono (goodR_mono (H2.2 r hr2) H3.1) H4.1
      · exact goodR_mono (H3.2 r hr3) H4.1
    · exact H4.2 r hr4
  obtain ⟨g1, g2, g3, g4⟩ := hgood
  simp only [rendererResolves, hds, hxr, hyr, List.headD_cons]
  exact ⟨g1, g2, g3, g4⟩

/-- Claim C1 witness: a concrete successful conversion of an axes object
with one plain line; its renderer resolves. -/
theorem c1_renderer_columns_resolve_witness : rendererResolves c1plot c1rend :=
  c1_renderer_columns_resolve wOracle wHex wAxes false c1plot rfl c1rend (by decide)

/-- Claim C8: in every successful conversion the two grids — one per
dimension 0 and 1 — take their grid line color and width from the first
x-gridline of the source axes; in particular the y-dimension grid also
uses the first x-gridline's values. -/
theorem c8_grids_from_first_xgridline (o : SketchOracle) (rgb2hex : List ℚ → String)
    (ax : MplAxes) (xkcd : Bool) (plot : Plot) (g : Line2D) (gtail : List Line2D)
    (h : axes2plot o rgb2hex ax xkcd = .ok plot) (hg : ax.xgridlines = g :: gtail) :
    plot.grids.map (fun gr => gr.grid_line_color) = [g.color, g.color] ∧
    plot.grids.map (fun gr => gr.grid_line_width) = [g.linewidth, g.linewidth] ∧
    plot.grids.map (fun gr => gr.dimension) = [0, 1] := by
  obtain ⟨s1, s2, s3, s4, xaxis, yaxis, g', gtail', _, _, _, _, _, _, h7,
    _, _, _, _, hgr⟩ := axes2plot_ok_elim h
  rw [hg] at h7
  injection h7 with e1 e2
  subst e1
  rw [hgr]
  simp [make_grid]

/-- Claim C8 witness: a concrete conversion whose y-gridline has a
different color and width than the first x-gridline; both grids still
carry the x-gridline's color and width. -/
theorem c8_grids_from_first_xgridline_witness :
    c8plot.grids.map (fun gr => gr.grid_line_color) = [wGridX.color, wGridX.color] ∧
    c8plot.grids.map (fun gr => gr.grid_line_width) = [wGridX.linewidth, wGridX.linewidth] ∧
    c8plot.grids.map (fun gr => gr.dimension) = [0, 1] :=
  c8_grids_from_first_xgridline wOracle wHex wAxes false c8plot wGridX [] rfl rfl

theorem make_line_shape {o : SketchOracle} {st : ConvState} {l2d : Line2D}
    {xkcd : Bool} {q : ConvState × GlyphSpec}
    (h : make_line o st l2d xkcd = .ok q) : q.2.isLine = true := by
  simp only [make_line, csAdd] at h
  cases hlp : line_props l2d with
  | error e => rw [hlp] at h; exact Except.noConfusion h
  | ok lp =>
    simp only [hlp, Except.ok.injEq] at h
    subst h
    simp [GlyphSpec.isLine]

theorem make_marker_shape {st : ConvState} {l2d : Line2D} {q : ConvState × GlyphSpec}
    (h : (make_marker st l2d).2 = .ok q) : q.2.isMarker = true := by
  cases hm : l2d.marker with
  | none =>
    simp only [make_marker, hm] at h
    exact Except.noConfusion h
  | some s =>
    cases hlk : marker_map.lookup s with
    | none =>
      simp only [make_marker, hm, hlk] at h
      exact Except.noConfusion h
    | some mt =>
      simp only [make_marker, hm, hlk, csAdd, Except.ok.injEq] at h
      subst h
      simp [GlyphSpec.isMarker]

theorem convertAll_singleton {α : Type}
    {mk : ConvState → α → Except String (ConvState × GlyphSpec)}
    {st : ConvState} {a : α} {p : ConvState × List GlyphSpec}
    (h : convertAll mk st [a] = .ok p) :
    ∃ q : ConvState × GlyphSpec, mk st a = .ok q ∧ p = (q.1, [q.2]) := by
  rw [convertAll] at h
  cases hmk : mk st a with
  | error e => rw [hmk] at h; exact Except.noConfusion h
  | ok q =>
    simp only [hmk, convertAll] at h
    injection h with h2
    exact ⟨q, rfl, h2.symm⟩

/-- Claim C3 (amended): classification is string-based and case-sensitive
— exactly `""`, `" "`, `"None"`, `"none"` and Python `None` count as not
present (not arbitrary case variants).  A line whose linestyle is not
present but whose marker is (e.g. linestyle `"none"`, marker `"o"`)
yields exactly one renderer, a marker, never a plain line; a present
linestyle with an absent marker (e.g. `"-"` with `"none"`) yields exactly
one renderer, a plain line; and a line carrying any present linestyle
together with any present marker yields two renderers, the plain-line one
then the marker one. -/
theorem c3_classification_amended :
    (∀ s : Option String,
      stylePresent s = false ↔
        (s = Option.none ∨ s = some "" ∨ s = some " " ∨ s = some "None" ∨
          s = some "none")) ∧
    (∀ (o : SketchOracle) (rgb2hex : List ℚ → String) (ax : MplAxes) (l : Line2D)
        (xkcd : Bool) (plot : Plot),
      ax.lines = [l] → ax.collections = [] →
      axes2plot o rgb2hex ax xkcd = .ok plot →
      ((stylePresent l.linestyle = false → stylePresent l.marker = true →
        plot.renderers.length = 1 ∧
        (plot.renderers.headD defaultGlyph).isMarker = true) ∧
       (stylePresent l.linestyle = true → stylePresent l.marker = false →
        plot.renderers.length = 1 ∧
        (plot.renderers.headD defaultGlyph).isLine = true) ∧
       (stylePresent l.linestyle = true → stylePresent l.marker = true →
        plot.renderers.length = 2 ∧
        (plot.renderers.headD defaultGlyph).isLine = true ∧
        (plot.renderers.getD 1 defaultGlyph).isMarker = true))) := by
  constructor
  · intro s
    cases s with
    | none => simp [stylePresent]
    | some str =>
      simp [stylePresent]
      tauto
  · intro o rgb2hex ax l xkcd plot hlines hcoll h
    obtain ⟨s1, s2, s3, s4, xaxis, yaxis, g, gtail, h1, h2, h3, h4, _, _, _,
      hrend, _, _, _, _⟩ := axes2plot_ok_elim h
    rw [hlines] at h1 h2
    rw [hcoll] at h3 h4
    simp only [List.filter_nil] at h3 h4
    rw [convertAll] at h3 h4
    injection h3 with e3
    injection h4 with e4
    have hs3 : s3 = (s2.1, []) := e3.symm
    have hs4 : s4 = (s3.1, []) := e4.symm
    refine ⟨fun hls hm => ?_, fun hls hm => ?_, fun hls hm => ?_⟩
    · have e1 : List.filter (fun l2 => stylePresent l2.linestyle) [l] = [] := by
        simp [hls]
      have e2 : List.filter (fun m => stylePresent m.marker) [l] = [l] := by
        simp [hm]
      rw [e1, convertAll] at h1
      injection h1 with e1'
      have hs1 : s1 = (⟨[], [], []⟩, []) := e1'.symm
      rw [e2] at h2
      obtain ⟨qm, hqm, hs2⟩ := convertAll_singleton h2
      have hmk := make_marker_shape hqm
      rw [hrend]
      simp [hs1, hs2, hs3, hs4, hmk]
    · have e1 : List.filter (fun l2 => stylePresent l2.linestyle) [l] = [l] := by
        simp [hls]
      have e2 : List.filter (fun m => stylePresent m.marker) [l] = [] := by
        simp [hm]
      rw [e1] at h1
      obtain ⟨ql, hql, hs1⟩ := convertAll_singleton h1
      have hlk := make_line_shape hql
      rw [e2, convertAll] at h2
      injection h2 with e2'
      have hs2 : s2 = (s1.1, []) := e2'.symm
      rw [hrend]
      simp [hs1, hs2, hs3, hs4, hlk]
    · have e1 : List.filter (fun l2 => stylePresent l2.linestyle) [l] = [l] := by
        simp [hls]
      have e2 : List.filter (fun m => stylePresent m.marker) [l] = [l] := by
        simp [hm]
      rw [e1] at h1
      obtain ⟨ql, hql, hs1⟩ := convertAll_singleton h1
      have hlk := make_line_shape hql
      rw [e2] at h2
      obtain ⟨qm, hqm, hs2⟩ := convertAll_singleton h2
      have hmk := make_marker_shape hqm
      rw [hrend]
      simp [hs1, hs2, hs3, hs4, hlk, hmk]

/-- Claim C3 witness: the marker-only scenario at a concrete axes object
whose single line has linestyle `"none"` and marker `"o"`, and a
both-present conversion whose single line has linestyle `"--"` and marker
`"s"` and yields a plain-line renderer followed by a marker renderer. -/
theorem c3_classification_amended_witness :
    (c3plotM.renderers.length = 1 ∧
      (c3plotM.renderers.headD defaultGlyph).isMarker = true) ∧
    (c3plotB.renderers.length = 2 ∧
      (c3plotB.renderers.headD defaultGlyph).isLine = true ∧
      (c3plotB.renderers.getD 1 defaultGlyph).isMarker = true) :=
  ⟨(c3_classification_amended.2 wOracle wHex (axWithLine lineMarkerOnly)
      lineMarkerOnly false c3plotM rfl rfl rfl).1 rfl rfl,
   (c3_classification_amended.2 wOracle wHex (axWithLine lineBoth2)
      lineBoth2 false c3plotB rfl rfl rfl).2.2 rfl rfl⟩

/-- Claim C7: a vertical alignment outside the alignment table and a cap
style outside the cap-style table raise a lookup error that propagates
(`make_line` fails with the same error); an unsupported marker symbol
first emits the non-fatal warning and then still performs the table
lookup, which raises the same kind of lookup error. -/
theorem c7_lookup_failures :
    (∀ (t : MplText) (c : BkColor),
      t.fontstyle ∈ ["oblique", "normal", "italic"] →
      convert_color t.color = .ok c →
      t.verticalalignment ∉ ["center", "top", "bottom"] →
      text_props t = .error ("KeyError: " ++ t.verticalalignment)) ∧
    (∀ l2d : Line2D,
      l2d.solid_capstyle ∉ ["butt", "round", "projecting"] →
      line_props l2d = .error ("KeyError: " ++ l2d.solid_capstyle) ∧
      ∀ (o : SketchOracle) (st : ConvState) (xkcd : Bool),
        make_line o st l2d xkcd = .error ("KeyError: " ++ l2d.solid_capstyle)) ∧
    (∀ (st : ConvState) (l2d : Line2D) (s : String),
      l2d.marker = some s → marker_map.lookup s = Option.none →
      (make_marker st l2d).1 = ["Unable to handle marker: " ++ s] ∧
      (make_marker st l2d).2 = .error ("KeyError: " ++ s)) := by
  refine ⟨?_, ?_, ?_⟩
  · intro t c hf hc ha
    simp only [List.mem_cons, List.mem_singleton, List.not_mem_nil, or_false] at ha
    push_neg at ha
    have hb1 : (t.verticalalignment == "center") = false :=
      beq_eq_false_iff_ne.mpr ha.1
    have hb2 : (t.verticalalignment == "top") = false :=
      beq_eq_false_iff_ne.mpr ha.2.1
    have hb3 : (t.verticalalignment == "bottom") = false :=
      beq_eq_false_iff_ne.mpr ha.2.2
    simp only [List.mem_cons, List.mem_singleton, List.not_mem_nil, or_false] at hf
    rcases hf with hf | hf | hf <;>
      simp [text_props, hf, fontstyle_map, alignment_map, List.lookup, hc,
        hb1, hb2, hb3]
  · intro l2d hcap
    simp only [List.mem_cons, List.mem_singleton, List.not_mem_nil, or_false] at hcap
    push_neg at hcap
    have hb1 : (l2d.solid_capstyle == "butt") = false :=
      beq_eq_false_iff_ne.mpr hcap.1
    have hb2 : (l2d.solid_capstyle == "round") = false :=
      beq_eq_false_iff_ne.mpr hcap.2.1
    have hb3 : (l2d.solid_capstyle == "projecting") = false :=
      beq_eq_false_iff_ne.mpr hcap.2.2
    have hlp : line_props l2d = .error ("KeyError: " ++ l2d.solid_capstyle) := by
      simp [line_props, cap_style_map, List.lookup, hb1, hb2, hb3]
    exact ⟨hlp, fun o st xkcd => by simp [make_line, hlp]⟩
  · intro st l2d s hm hlk
    constructor
    · simp [make_marker, hm, hlk]
    · simp [make_marker, hm, hlk]

/-- Claim C7 witness: the `"baseline"` alignment, a `"weird"` cap style
(also propagated through `make_line`), and the unsupported `"h"` marker. -/
theorem c7_lookup_failures_witness :
    text_props badAlignText = .error ("KeyError: " ++ badAlignText.verticalalignment) ∧
    line_props badCapLine = .error ("KeyError: " ++ badCapLine.solid_capstyle) ∧
    make_line wOracle ⟨[], [], []⟩ badCapLine false
      = .error ("KeyError: " ++ badCapLine.solid_capstyle) ∧
    (make_marker ⟨[], [], []⟩ badMarkerLine).1 = ["Unable to handle marker: " ++ "h"] ∧
    (make_marker ⟨[], [], []⟩ badMarkerLine).2 = .error ("KeyError: " ++ "h") :=
  ⟨c7_lookup_failures.1 badAlignText (.named "black") (by decide) rfl (by decide),
   (c7_lookup_failures.2.1 badCapLine (by decide)).1,
   (c7_lookup_failures.2.1 badCapLine (by decide)).2 wOracle ⟨[], [], []⟩ false,
   (c7_lookup_failures.2.2 ⟨[], [], []⟩ badMarkerLine "h" rfl (by decide)).1,
   (c7_lookup_failures.2.2 ⟨[], [], []⟩ badMarkerLine "h" rfl (by decide)).2⟩

theorem np_transpose2_singleton (row : List ℚ) :
    np_transpose2 [row] = row.map (fun v => [v]) := by
  rw [np_transpose2]
  apply List.ext_getElem
  · simp
  · intro n h1 h2
    simp only [List.getElem_map, List.getElem_range, List.map_cons, List.map_nil,
      List.headD_cons]
    rw [List.getD_eq_getElem row 0 (by simpa using h2)]

theorem polysCoord_singleton (f : ℚ × ℚ → ℚ) (path : MplPath)
    (poly : List (ℚ × ℚ)) (hp : path.polygons = [poly]) :
    polysCoord f path = poly.dropLast.map (fun v => [f v]) := by
  rw [polysCoord, hp, delete_last_col]
  simp only [List.map_cons, List.map_nil]
  rw [np_transpose2_singleton, List.map_map]
  rfl

/-- Claim C6: `_make_polys_collection` registers, for each path, the
transpose of the closing-vertex-stripped polygon stack; for a path whose
`to_polygons` yields a single polygon of `m` vertices, the emitted xs/ys
entries are the first `m - 1` vertices (the duplicated closing coordinate
dropped), hence exactly `m - 1` coordinate pairs. -/
theorem c6_polys_drop_closing {rgb2hex : List ℚ → String} {st : ConvState}
    {col : MplCollectionData} {st' : ConvState} {r : GlyphSpec}
    (h : make_polys_collection rgb2hex st col = .ok (st', r)) :
    st'.cols.getD st.cols.length (.nums [])
      = .numsss (col.paths.map (polysCoord Prod.fst)) ∧
    st'.cols.getD (st.cols.length + 1) (.nums [])
      = .numsss (col.paths.map (polysCoord Prod.snd)) ∧
    ∀ p ∈ col.paths, ∀ poly : List (ℚ × ℚ), p.polygons = [poly] →
      polysCoord Prod.fst p = poly.dropLast.map (fun v => [v.1]) ∧
      polysCoord Prod.snd p = poly.dropLast.map (fun v => [v.2]) ∧
      (polysCoord Prod.fst p).length = poly.length - 1 := by
  simp only [make_polys_collection, csAdd] at h
  split at h
  · exact Except.noConfusion h
  · rename_i pr heq
    simp only [Except.ok.injEq, Prod.mk.injEq] at h
    obtain ⟨h1, h2⟩ := h
    subst h1; subst h2
    obtain ⟨c1, c2, c3, hcols⟩ := patches_props_cols heq
    refine ⟨?_, ?_, ?_⟩
    · rw [hcols]
      simp only [List.append_assoc, List.singleton_append, List.cons_append]
      rw [List.getD_append_right _ _ _ _ (le_refl _)]
      simp
    · rw [hcols]
      simp only [List.append_assoc, List.singleton_append, List.cons_append]
      rw [List.getD_append_right _ _ _ _ (by omega)]
      have hidx : st.cols.length + 1 - st.cols.length = 1 := by omega
      rw [hidx]
      rfl
    · intro p _ poly hpoly
      refine ⟨polysCoord_singleton _ _ _ hpoly, polysCoord_singleton _ _ _ hpoly, ?_⟩
      rw [polysCoord_singleton _ _ _ hpoly]
      simp [List.length_map, List.length_dropLast]

/-- Claim C6 witness: the closed square path with 5 vertices (last equals
first) yields xs entries with exactly 4 coordinates. -/
theorem c6_polys_drop_closing_witness :
    c6res.1.cols.getD 0 (.nums []) = .numsss [[[(0 : ℚ)], [1], [1], [0]]] ∧
    (polysCoord Prod.fst sqPath).length = 4 := by
  have H := c6_polys_drop_closing
    (show make_polys_collection wHex ⟨[], [], []⟩ sqColl = .ok (c6res.1, c6res.2)
      from rfl)
  constructor
  · exact H.1.trans (by decide)
  · exact ((H.2.2 sqPath (by decide) [(0, 0), (1, 0), (1, 1), (0, 1), (0, 0)]
      rfl).2.2).trans (by decide)

theorem lfilter_length (b xs : List ℚ) : (lfilter b xs).length = xs.length := by
  simp [lfilter]

theorem zip_sum_nonneg (sq : ℚ → ℚ) (hs : ∀ q, 0 ≤ sq q) :
    ∀ xs ys : List ℚ,
      0 ≤ (List.zipWith (fun a b => sq (a * a + b * b)) xs ys).sum := by
  intro xs
  induction xs with
  | nil => intro ys; simp
  | cons a xt ih =>
    intro ys
    cases ys with
    | nil => simp
    | cons b yt =>
      simp only [List.zipWith_cons_cons, List.sum_cons]
      exact add_nonneg (hs _) (ih yt)

theorem distTot_nonneg {o : SketchOracle} (hs : ∀ q, 0 ≤ o.sqrtO q)
    (x y : List ℚ) (xlim ylim : Option (ℚ × ℚ)) :
    0 ≤ distTot o x y xlim ylim := by
  simp only [distTot, pathDist]
  exact zip_sum_nonneg _ hs _ _

theorem pyInt_nonneg {q : ℚ} (h : 0 ≤ q) : 0 ≤ pyInt q := by
  rw [pyInt, if_pos h]
  exact Rat.le_floor.mpr (by exact_mod_cast h)

theorem sketchRun_lengths (o : SketchOracle) (x y : List ℚ)
    (xlim ylim : Option (ℚ × ℚ)) (mag : ℚ) (f1 : ℕ) (f2 f3 : ℚ) :
    (sketchRun o x y xlim ylim mag f1 f2 f3).x_new.length
        = ((sketchRun o x y xlim ylim mag f1 f2 f3).nu + 2).toNat - 2 ∧
    (sketchRun o x y xlim ylim mag f1 f2 f3).y_new.length
        = ((sketchRun o x y xlim ylim mag f1 f2 f3).nu + 2).toNat - 2 := by
  simp only [sketchRun, lfilter]
  constructor <;>
  · simp only [List.length_zipWith, List.length_dropLast, List.length_drop,
      List.length_map, List.length_range, List.length_zip]
    omega

/-- Claim C4: both arrays returned by `xkcd_line` have length
`int(200·L)`, `L` being the total Euclidean path length of the input
rescaled by the resolved limits (`distTot`); this length is the same for
every `mag` (and filter parameters) and every realization of the spline,
RNG and FIR oracles, so it depends only on the rescaled input geometry —
and in general differs from the input length. -/
theorem c4_xkcd_output_length (o : SketchOracle) (x y : List ℚ)
    (xlim ylim : Option (ℚ × ℚ)) (mag mag' : ℚ) (f1 f1' : ℕ) (f2 f3 f2' f3' : ℚ)
    (_hlen : 2 ≤ x.length) (_hxy : x.length = y.length)
    (hsq : ∀ q, 0 ≤ o.sqrtO q) (_hdeg : ¬bothDegenerate x y xlim ylim) :
    (xkcd_line o x y xlim ylim mag f1 f2 f3).1.length
        = (pyInt (200 * distTot o x y xlim ylim)).toNat ∧
    (xkcd_line o x y xlim ylim mag f1 f2 f3).2.length
        = (pyInt (200 * distTot o x y xlim ylim)).toNat ∧
    (xkcd_line o x y xlim ylim mag f1 f2 f3).1.length
        = (xkcd_line o x y xlim ylim mag' f1' f2' f3').1.length ∧
    (xkcd_line o x y xlim ylim mag f1 f2 f3).2.length
        = (xkcd_line o x y xlim ylim mag' f1' f2' f3').2.length := by
  have hdt := distTot_nonneg hsq x y xlim ylim
  have hnn : 0 ≤ pyInt (200 * distTot o x y xlim ylim) :=
    pyInt_nonneg (mul_nonneg (by norm_num) hdt)
  have key : ∀ (m : ℚ) (g1 : ℕ) (g2 g3 : ℚ),
      (xkcd_line o x y xlim ylim m g1 g2 g3).1.length
          = (pyInt (200 * distTot o x y xlim ylim)).toNat ∧
      (xkcd_line o x y xlim ylim m g1 g2 g3).2.length
          = (pyInt (200 * distTot o x y xlim ylim)).toNat := by
    intro m g1 g2 g3
    have hL := sketchRun_lengths o x y xlim ylim m g1 g2 g3
    have hnu : (sketchRun o x y xlim ylim m g1 g2 g3).nu
        = pyInt (200 * distTot o x y xlim ylim) := rfl
    constructor
    · simp only [xkcd_line, List.length_map]
      rw [hL.1, hnu]
      omega
    · simp only [xkcd_line, List.length_map]
      rw [hL.2, hnu]
      omega
  exact ⟨(key mag f1 f2 f3).1, (key mag f1 f2 f3).2,
    (key mag f1 f2 f3).1.trans ((key mag' f1' f2' f3').1).symm,
    (key mag f1 f2 f3).2.trans ((key mag' f1' f2' f3').2).symm⟩

/-- Claim C4 witness: the straight segment from (0,0) to (10,0) — rescaled
path length 1 — gives output arrays of length `int(200·1) = 200`, not the
input length 2. -/
theorem c4_xkcd_output_length_witness :
    (xkcd_line c4Oracle [0, 10] [0, 0] Option.none Option.none 1 30 (1/1000) 5).1.length
        = 200 ∧
    (200 : ℕ) ≠ ([(0 : ℚ), 10]).length := by
  have hdeg : ¬bothDegenerate [0, 10] [0, 0] Option.none Option.none := by
    simp [bothDegenerate, listMin, listMax, List.foldl, min_def, max_def]
  have H := c4_xkcd_output_length c4Oracle [0, 10] [0, 0] Option.none Option.none
    1 1 30 30 (1/1000) 5 (1/1000) 5 (by decide) rfl (fun q => abs_nonneg q) hdeg
  have hd : distTot c4Oracle [0, 10] [0, 0] Option.none Option.none = 1 := by
    norm_num [distTot, c4Oracle, resolveLims, listMin, listMax, scaleBy, pathDist,
      List.foldl, min_def, max_def]
  have hEval : (pyInt (200 * distTot c4Oracle [0, 10] [0, 0] Option.none Option.none)).toNat
      = 200 := by
    rw [hd]
    rw [show pyInt (200 * 1 : ℚ) = 200 from by norm_num [pyInt_def]]
    decide
  exact ⟨H.1.trans hEval, by decide⟩

theorem perturb_getD (base pr pd ps : List ℚ) (j : ℕ)
    (hj : j < (List.zipWith (fun m p => m + p) ((base.drop 1).dropLast)
        (List.zipWith (fun r p => r * p.1 / p.2) pr (pd.zip ps))).length) :
    (List.zipWith (fun m p => m + p) ((base.drop 1).dropLast)
        (List.zipWith (fun r p => r * p.1 / p.2) pr (pd.zip ps))).getD j 0
      = base.getD (j + 1) 0 + pr.getD j 0 * pd.getD j 0 / ps.getD j 0 := by
  have hb := hj
  simp only [List.length_zipWith, List.length_dropLast, List.length_drop,
    List.length_zip, lt_min_iff] at hb
  obtain ⟨hb1, hb2, hb3, hb4⟩ := hb
  rw [List.getD_eq_getElem _ _ hj]
  simp only [List.getElem_zipWith, List.getElem_zip, List.getElem_dropLast,
    List.getElem_drop]
  rw [← List.getD_eq_getElem base 0 (show 1 + j < base.length by omega),
    ← List.getD_eq_getElem pr 0 hb2, ← List.getD_eq_getElem pd 0 hb3,
    ← List.getD_eq_getElem ps 0 hb4, Nat.add_comm 1 j]

/-- Claim C5 (amended): the displacement `xkcd_line` adds to interior
sample `j` is `response[j] · (dy, dx) / dist[j]` — the central-difference
tangent components swapped WITHOUT a sign flip — so its dot product with
the tangent `(dx, dy)` equals `2·response[j]·dx·dy / dist[j]`, which is
zero only for axis-aligned tangents or vanishing perturbation, not for
every sample and realization. -/
theorem c5_displacement_amended (o : SketchOracle) (x y : List ℚ)
    (xlim ylim : Option (ℚ × ℚ)) (mag : ℚ) (f1 : ℕ) (f2 f3 : ℚ) (j : ℕ) :
    let R := sketchRun o x y xlim ylim mag f1 f2 f3
    j < R.x_new.length → j < R.y_new.length →
    (R.x_new.getD j 0 = R.x_int.getD (j + 1) 0
        + R.response.getD j 0 * R.dyc.getD j 0 / R.dist.getD j 0) ∧
    (R.y_new.getD j 0 = R.y_int.getD (j + 1) 0
        + R.response.getD j 0 * R.dxc.getD j 0 / R.dist.getD j 0) ∧
    (R.x_new.getD j 0 - R.x_int.getD (j + 1) 0) * R.dxc.getD j 0
        + (R.y_new.getD j 0 - R.y_int.getD (j + 1) 0) * R.dyc.getD j 0
      = 2 * R.response.getD j 0 * R.dxc.getD j 0 * R.dyc.getD j 0
          / R.dist.getD j 0 := by
  intro R hjx hjy
  have hx : R.x_new.getD j 0 = R.x_int.getD (j + 1) 0
      + R.response.getD j 0 * R.dyc.getD j 0 / R.dist.getD j 0 :=
    perturb_getD R.x_int R.response R.dyc R.dist j hjx
  have hy : R.y_new.getD j 0 = R.y_int.getD (j + 1) 0
      + R.response.getD j 0 * R.dxc.getD j 0 / R.dist.getD j 0 :=
    perturb_getD R.y_int R.response R.dxc R.dist j hjy
  refine ⟨hx, hy, ?_⟩
  rw [hx, hy]
  ring

theorem c5Run_dt :
    distTot c5Oracle [0, 1] [0, 1] (some (0, 1)) (some (0, 1)) = 1/100 := by
  norm_num [distTot, c5Oracle, resolveLims, scaleBy, pathDist]

theorem c5Run_nu : c5Run.nu = 2 := by
  show (sketchRun c5Oracle [0, 1] [0, 1] (some (0, 1)) (some (0, 1))
    1 30 (1/1000) 5).nu = 2
  simp only [sketchRun]
  rw [c5Run_dt]
  norm_num [pyInt_def]

theorem c5Run_len : c5Run.x_new.length = 2 ∧ c5Run.y_new.length = 2 := by
  have h := sketchRun_lengths c5Oracle [0, 1] [0, 1] (some (0, 1)) (some (0, 1))
    1 30 (1/1000) 5
  have hnu : (sketchRun c5Oracle [0, 1] [0, 1] (some (0, 1)) (some (0, 1))
      1 30 (1/1000) 5).nu = 2 := c5Run_nu
  rw [hnu] at h
  exact ⟨h.1.trans (by decide), h.2.trans (by decide)⟩

/-- Claim C5 counterexample: a fully concrete run on the diagonal segment
(0,0)–(1,1): the displacement added to the first interior sample has a
NONZERO dot product with the central-difference tangent, so the
perturbation is not perpendicular to the curve. -/
theorem c5_perpendicular_counterexample :
    (c5Run.x_new.getD 0 0 - c5Run.x_int.getD 1 0) * c5Run.dxc.getD 0 0
      + (c5Run.y_new.getD 0 0 - c5Run.y_int.getD 1 0) * c5Run.dyc.getD 0 0 ≠ 0 := by
  have h1 : List.range 4 = [0, 1, 2, 3] := rfl
  have h2 : List.range 2 = [0, 1] := rfl
  have h3 : List.range 1 = [0] := rfl
  simp only [c5Run, sketchRun, lfilter]
  rw [c5Run_dt]
  rw [show pyInt (200 * (1/100 : ℚ)) = 2 from by norm_num [pyInt_def]]
  norm_num [c5Oracle, h1, h2, h3, List.getD_cons_zero, List.getD_cons_succ,
    List.dropLast, List.zipWith_cons_cons, List.zip_cons_cons, List.map_cons,
    List.sum_cons, List.drop_succ_cons, Int.toNat_ofNat]

/-- Claim C5 witness: the amended displacement formula instantiated at the
concrete diagonal run, interior sample 0. -/
theorem c5_displacement_amended_witness :
    (c5Run.x_new.getD 0 0 = c5Run.x_int.getD 1 0
        + c5Run.response.getD 0 0 * c5Run.dyc.getD 0 0 / c5Run.dist.getD 0 0) ∧
    (c5Run.y_new.getD 0 0 = c5Run.y_int.getD 1 0
        + c5Run.response.getD 0 0 * c5Run.dxc.getD 0 0 / c5Run.dist.getD 0 0) ∧
    (c5Run.x_new.getD 0 0 - c5Run.x_int.getD 1 0) * c5Run.dxc.getD 0 0
        + (c5Run.y_new.getD 0 0 - c5Run.y_int.getD 1 0) * c5Run.dyc.getD 0 0
      = 2 * c5Run.response.getD 0 0 * c5Run.dxc.getD 0 0 * c5Run.dyc.getD 0 0
          / c5Run.dist.getD 0 0 :=
  c5_displacement_amended c5Oracle [0, 1] [0, 1] (some (0, 1)) (some (0, 1))
    1 30 (1/1000) 5 0
    (by show 0 < c5Run.x_new.length
        rw [c5Run_len.1]
        decide)
    (by show 0 < c5Run.y_new.length
        rw [c5Run_len.2]
        decide)
